import Mathlib

/-!
Verification development for the telemetry core of the system-monitoring-app
repository: the CPU / memory / process collectors
(`src/server/src/utils/system.js`, `src/server/src/utils/processes.js`), the
broadcast scheduler and subscription registry (`src/server/src/utils/monitor.js`),
and the client reconnection manager (`src/src/App.tsx`, `useWebSocket`).

The JavaScript source is shallowly embedded: JS numbers appearing in the
collectors are modelled as exact rationals, with a dedicated type `JNum`
(NaN / signed infinity / finite) where division by zero can occur; machine
strings are Lean `String`s processed by char-level models of the JS string
primitives (`split`, `trim`, `replace`, `parseInt`, `parseFloat`).  Stateful
code (the WebSocket registry and the reconnection manager) is modelled as
explicit step functions on state records.
-/

set_option maxRecDepth 100000

namespace SysMon

/-- Model of JS `Math.round` on finite doubles: round half toward positive
infinity, i.e. `⌊q + 1/2⌋`. -/
def jsRound (q : ℚ) : ℤ := ⌊q + 1/2⌋

/-- The JS double values reachable in the collector arithmetic: `NaN`, a signed
infinity, or a finite value (modelled exactly as a rational). -/
inductive JNum where
  | nan : JNum
  | inf (pos : Bool) : JNum
  | num (q : ℚ) : JNum
deriving DecidableEq, Repr

/-- JS division `a / b` of two finite values (floating-point rounding is
immaterial to the properties proved here): `0 / 0` is `NaN`, `a / 0` is a
signed infinity for `a ≠ 0`, otherwise the exact quotient. -/
def jnDivQ (a b : ℚ) : JNum :=
  if b = 0 then (if a = 0 then .nan else .inf (decide (0 < a))) else .num (a / b)

/-- JS division of two integer-valued doubles. -/
def jnDivInt (a b : ℤ) : JNum := jnDivQ (a : ℚ) (b : ℚ)

/-- JS multiplication by the literal `100` (as in `(x) * 100`). -/
def jnMul100 : JNum → JNum
  | .nan => .nan
  | .inf s => .inf s
  | .num q => .num (q * 100)

/-- JS `Math.round` lifted to `JNum`: `NaN` and infinities propagate. -/
def jnRound : JNum → JNum
  | .nan => .nan
  | .inf s => .inf s
  | .num q => .num ((jsRound q : ℤ) : ℚ)

/-- JS subtraction `100 - x`. -/
def jnSub100 : JNum → JNum
  | .nan => .nan
  | .inf s => .inf (!s)
  | .num q => .num (100 - q)

/-- JS `Math.min(100, x)`: `NaN` propagates (`Math.min` returns `NaN` when any
argument is `NaN`). -/
def jnMin100 : JNum → JNum
  | .nan => .nan
  | .inf true => .num 100
  | .inf false => .inf false
  | .num q => .num (min 100 q)

/-- JS `Math.max(0, x)`: `NaN` propagates. -/
def jnMax0 : JNum → JNum
  | .nan => .nan
  | .inf true => .inf true
  | .inf false => .num 0
  | .num q => .num (max 0 q)

/-! ### CPU collector (`src/server/src/utils/system.js`, `getCPUPercent`) -/

/-- One `os.cpus()[i].times` reading: per-mode tick counters. -/
structure CpuTimes where
  user : ℤ
  nice : ℤ
  sys : ℤ
  idle : ℤ
  irq : ℤ
deriving DecidableEq, Repr

/-- Sum of all tick counters of one core, as computed by
`Object.values(cpu.times).reduce((a, b) => a + b, 0)`. -/
def CpuTimes.totalTicks (t : CpuTimes) : ℤ := t.user + t.nice + t.sys + t.idle + t.irq

/-- Accumulated `idle2 - idle1` over all cores (`totalIdle` in the source).
The source indexes `cpus2[i]` for `i < cpus1.length`; the two readings come
from the same machine 100 ms apart, so the lists are modelled pairwise via
`zip`. -/
def totalIdleDelta (c1 c2 : List CpuTimes) : ℤ :=
  ((c1.zip c2).map (fun p => p.2.idle - p.1.idle)).sum

/-- Accumulated `total2 - total1` over all cores (`totalTick` in the source). -/
def totalTickDelta (c1 c2 : List CpuTimes) : ℤ :=
  ((c1.zip c2).map (fun p => p.2.totalTicks - p.1.totalTicks)).sum

/-- Embedding of `getCPUPercent` (system.js lines 112-140) applied to the two
`os.cpus()` readings taken 100 ms apart:
`Math.max(0, Math.min(100, 100 - Math.round((totalIdle / totalTick) * 100)))`. -/
def getCPUPercent (c1 c2 : List CpuTimes) : JNum :=
  jnMax0 (jnMin100 (jnSub100 (jnRound (jnMul100
    (jnDivInt (totalIdleDelta c1 c2) (totalTickDelta c1 c2))))))

/-! ### Memory collector (`src/server/src/utils/system.js`, `getMemoryUsage`) -/

/-- The base fields of the memory sample built by `getMemoryUsage`
(lines 177-187).  The Linux-only extended fields read from `/proc/meminfo`
(lines 190-214) are outside the modelled fragment; no claim concerns them. -/
structure MemInfo where
  total : ℤ
  free : ℤ
  used : ℤ
  percentage : JNum
deriving DecidableEq, Repr

/-- Embedding of `getMemoryUsage` on the two byte counters returned by
`os.totalmem()` / `os.freemem()`.  Each MB field is an independent rounding of
its byte counter; the percentage is computed from the byte counters. -/
def getMemoryUsage (totalmem freemem : ℕ) : MemInfo :=
  let usedBytes : ℤ := (totalmem : ℤ) - (freemem : ℤ)
  { total := jsRound ((totalmem : ℚ) / 1024 / 1024)
    free := jsRound ((freemem : ℚ) / 1024 / 1024)
    used := jsRound ((usedBytes : ℚ) / 1024 / 1024)
    percentage := jnRound (jnMul100 (jnDivQ (usedBytes : ℚ) (totalmem : ℚ))) }

/-! ### Char-level models of the JS string primitives -/

/-- Digit run to integer value (the digits have already been selected with
`Char.isDigit`). -/
def digitsToInt (ds : List Char) : ℤ :=
  ds.foldl (fun acc c => acc * 10 + ((c.toNat : ℤ) - 48)) 0

/-- Model of JS `parseInt(s)` (decimal): skip leading whitespace, optional
sign, then a leading run of decimal digits; `NaN` (here `none`) when no digit
is found. -/
def jsParseInt (s : String) : Option ℤ :=
  let cs := s.toList.dropWhile Char.isWhitespace
  let sr : ℤ × List Char :=
    match cs with
    | '-' :: rest => (-1, rest)
    | '+' :: rest => (1, rest)
    | _ => (1, cs)
  let ds := sr.2.takeWhile Char.isDigit
  if ds.isEmpty then none else some (sr.1 * digitsToInt ds)

/-- Model of JS `parseFloat(s)` on the decimal fragment `[+-]?digits[.digits]?`
actually produced by `ps`/`tasklist` output; `NaN` is `none`. -/
def jsParseFloat (s : String) : Option ℚ :=
  let cs := s.toList.dropWhile Char.isWhitespace
  let sr : ℚ × List Char :=
    match cs with
    | '-' :: rest => (-1, rest)
    | '+' :: rest => (1, rest)
    | _ => (1, cs)
  let ipart := sr.2.takeWhile Char.isDigit
  let after := sr.2.dropWhile Char.isDigit
  let fpart : List Char :=
    match after with
    | '.' :: rest => rest.takeWhile Char.isDigit
    | _ => []
  if ipart.isEmpty && fpart.isEmpty then none
  else some (sr.1 * ((digitsToInt ipart : ℚ) + (digitsToInt fpart : ℚ) / (10 : ℚ) ^ fpart.length))

/-- Splitting worker for `jsSplit`: structural recursion on a fuel bound so
that all string processing evaluates inside the kernel. -/
def splitSepAux (sep : List Char) : ℕ → List Char → List Char → List (List Char)
  | 0, cs, acc => [acc.reverse ++ cs]
  | fuel + 1, cs, acc =>
    match cs with
    | [] => [acc.reverse]
    | c :: rest =>
      if sep.isPrefixOf (c :: rest) then
        acc.reverse :: splitSepAux sep fuel ((c :: rest).drop sep.length) []
      else
        splitSepAux sep fuel rest (c :: acc)

/-- Model of JS `s.split(sep)` for a non-empty literal separator: chunks
between the leftmost non-overlapping occurrences of `sep`, keeping empty
chunks (as JS does). -/
def jsSplit (s sep : String) : List String :=
  (splitSepAux sep.toList (s.toList.length + 1) s.toList []).map (fun cs => String.mk cs)

/-- Model of JS `s.trim()`: remove leading and trailing whitespace. -/
def jsTrim (s : String) : String :=
  String.mk (((s.toList.dropWhile Char.isWhitespace).reverse.dropWhile Char.isWhitespace).reverse)

/-- Model of JS `s.includes(sub)` for non-empty `sub`. -/
def jsIncludes (s sub : String) : Bool := decide (2 ≤ (jsSplit s sub).length)

/-- Model of JS `line.split(/\s+/)` on an already-trimmed line: maximal runs
of non-whitespace characters. -/
def wsTokensAux : List Char → List Char → List String
  | [], acc => if acc.isEmpty then [] else [String.mk acc.reverse]
  | c :: rest, acc =>
    if c.isWhitespace then
      if acc.isEmpty then wsTokensAux rest []
      else String.mk acc.reverse :: wsTokensAux rest []
    else wsTokensAux rest (c :: acc)

/-- Whitespace tokenizer entry point. -/
def wsTokens (s : String) : List String := wsTokensAux s.toList []

/-- Model of JS `s.replace(/"/g, "")`: drop every double-quote character. -/
def stripQuotes (s : String) : String :=
  String.mk (s.toList.filter (fun c => c != '"'))

/-- Model of JS `s.replace(/[,\s]/g, "")`: drop commas and whitespace. -/
def stripCommaWs (s : String) : String :=
  String.mk (s.toList.filter (fun c => !(c == ',' || c.isWhitespace)))

/-- Model of JS `parts[i]`: `undefined` out of range is represented by `""`
(every token produced by the tokenizers is non-empty, so `""` is unambiguous,
and the JS fallbacks `|| ...` treat `undefined` and `""` alike). -/
def jsAt (l : List String) (i : ℕ) : String := l.getD i ""

/-- Model of JS `s || d` for strings where `s` may be `undefined` (`""`). -/
def orDefault (s d : String) : String := if s = "" then d else s

/-- Model of JS `arr.join(" ")`. -/
def joinSp : List String → String
  | [] => ""
  | [x] => x
  | x :: xs => x ++ " " ++ joinSp xs

/-! ### Process collector (`src/server/src/utils/processes.js`) -/

/-- One process record produced by the Unix `ps` parsing paths
(`parseUnixProcesses`).  `pid` is `Option ℤ` because `parseInt` can yield
`NaN` (`none`); the fields that only the `ps aux` branch fills are given the
neutral values `0` / `""` in the other branch (the JS object simply lacks
them there, and nothing downstream reads them). -/
structure UnixProc where
  pid : Option ℤ
  ppid : ℤ
  user : String
  cpu : ℚ
  memory : ℚ
  memoryMB : ℤ
  vsz : ℤ
  rss : ℤ
  status : String
  start : String
  time : String
  name : String
  command : String
deriving DecidableEq, Repr

/-- Embedding of `calculateMemoryMB` (processes.js lines 172-175):
`Math.round((parseInt(rss) || 0) / 1024)`. -/
def calculateMemoryMB (_vsz rss : String) : ℤ :=
  jsRound ((((jsParseInt rss).getD 0 : ℤ) : ℚ) / 1024)

/-- Record candidate built from one `ps aux` line (processes.js lines
104-123); `none` when the line has fewer than 11 whitespace tokens. -/
def buildAuxRecord (parts : List String) : Option UnixProc :=
  if 11 ≤ parts.length then
    some
      { pid := jsParseInt (jsAt parts 1)
        ppid := 0
        user := jsAt parts 0
        cpu := (jsParseFloat (jsAt parts 2)).getD 0
        memory := (jsParseFloat (jsAt parts 3)).getD 0
        memoryMB := calculateMemoryMB (jsAt parts 4) (jsAt parts 5)
        vsz := (jsParseInt (jsAt parts 4)).getD 0
        rss := (jsParseInt (jsAt parts 5)).getD 0
        status := orDefault (jsAt parts 7) "unknown"
        start := jsAt parts 8
        time := jsAt parts 9
        name := orDefault (jsAt parts 10) "unknown"
        command := joinSp (parts.drop 10) }
  else none

/-- Record candidate built from one line of the alternative `ps` formats
(processes.js lines 124-137); `none` when the line has fewer than 6 tokens. -/
def buildOtherRecord (parts : List String) : Option UnixProc :=
  if 6 ≤ parts.length then
    some
      { pid := jsParseInt (jsAt parts 0)
        ppid := (jsParseInt (jsAt parts 1)).getD 0
        user := orDefault (jsAt parts 2) "unknown"
        cpu := (jsParseFloat (jsAt parts 3)).getD 0
        memory := (jsParseFloat (jsAt parts 4)).getD 0
        memoryMB := 0
        vsz := 0
        rss := 0
        status := ""
        start := ""
        time := ""
        name := orDefault (jsAt parts 5) "unknown"
        command := orDefault (joinSp (parts.drop 6)) (jsAt parts 5) }
  else none

/-- Model of the JS truthiness test `process.pid` on a number that may be
`NaN`: `NaN` and `0` are falsy, every other number is truthy. -/
def pidTruthy : Option ℤ → Bool
  | some v => v != 0
  | none => false

/-- Processing of one line of `ps` output (the body of the loop in
`parseUnixProcesses`, lines 97-147): trim, skip empty lines, tokenize, build
the format-specific candidate, and keep it only when `process && process.pid`
is truthy. -/
def unixLineRecord (commandUsed : String) (raw : String) : Option UnixProc :=
  let line := jsTrim raw
  if line = "" then none
  else
    let parts := wsTokens line
    let cand :=
      if jsIncludes commandUsed "aux" then buildAuxRecord parts
      else buildOtherRecord parts
    cand.bind (fun p => if pidTruthy p.pid then some p else none)

/-- The record list accumulated by `parseUnixProcesses` before sorting:
`stdout.trim().split("\n")`, header line skipped, one candidate per line. -/
def parseUnixRecords (stdout commandUsed : String) : List UnixProc :=
  ((jsSplit (jsTrim stdout) "\n").drop 1).filterMap (unixLineRecord commandUsed)

/-- Pid comparator relation used by `a.pid - b.pid` under `Array.sort`:
`a` may stay before `b` iff the comparator value is `≤ 0`, and a comparator
value of `NaN` is treated as `0` (a tie) by the ECMAScript sort. -/
def pidLe : Option ℤ → Option ℤ → Prop
  | some u, some v => u ≤ v
  | some _, none => True
  | none, _ => True

instance : ∀ x y, Decidable (pidLe x y)
  | some u, some v => inferInstanceAs (Decidable (u ≤ v))
  | some _, none => inferInstanceAs (Decidable True)
  | none, some _ => inferInstanceAs (Decidable True)
  | none, none => inferInstanceAs (Decidable True)

/-- Name comparator: `localeCompare` is modelled as code-point lexicographic
comparison (its locale-independent core; process names in `ps`/`tasklist`
output are plain ASCII). -/
def nameLe (a b : String) : Prop := a.toList ≤ b.toList

instance (a b : String) : Decidable (nameLe a b) :=
  inferInstanceAs (Decidable (a.toList ≤ b.toList))

/-- The Unix sort comparator of processes.js lines 150-161, expressed as the
relation "`a` may be placed before `b`" (comparator value `≤ 0`): `memory`
and the default key `cpu` sort numerically descending, `name` ascending by
`localeCompare`, `pid` ascending numerically. -/
def unixRel (sortBy : String) (a b : UnixProc) : Prop :=
  if sortBy = "memory" then b.memory ≤ a.memory
  else if sortBy = "name" then nameLe a.name b.name
  else if sortBy = "pid" then pidLe a.pid b.pid
  else b.cpu ≤ a.cpu

instance (sortBy : String) (a b : UnixProc) : Decidable (unixRel sortBy a b) := by
  unfold unixRel
  split_ifs <;> infer_instance

/-- Embedding of `parseUnixProcesses` (processes.js lines 92-164): parse,
sort with the comparator (`Array.sort` modelled as insertion sort; the claimed
properties are tie-order independent), then `slice(0, limit)`. -/
def parseUnixProcesses (stdout : String) (limit : ℕ) (sortBy commandUsed : String) :
    List UnixProc :=
  ((parseUnixRecords stdout commandUsed).insertionSort (unixRel sortBy)).take limit

/-- One process record produced by the Windows `tasklist /FO CSV` path. -/
structure WinProc where
  pid : Option ℤ
  name : String
  sessionName : String
  sessionId : ℤ
  memory : ℤ
  memoryMB : ℤ
  cpu : ℚ
  user : String
  command : String
deriving DecidableEq, Repr

/-- Processing of one `tasklist /FO CSV` line (processes.js lines 190-218):
trim, skip empty lines, split on `","`, strip the remaining quotes, and build
the record when at least 5 columns are present.  Note that this path performs
no pid validation at all. -/
def windowsLineRecord (raw : String) : Option WinProc :=
  let line := jsTrim raw
  if line = "" then none
  else
    let parts := (jsSplit line "\",\"").map stripQuotes
    if 5 ≤ parts.length then
      let memoryKB := (jsParseInt (stripCommaWs (jsAt parts 4))).getD 0
      some
        { pid := jsParseInt (jsAt parts 1)
          name := jsAt parts 0
          sessionName := jsAt parts 2
          sessionId := (jsParseInt (jsAt parts 3)).getD 0
          memory := memoryKB
          memoryMB := jsRound ((memoryKB : ℚ) / 1024)
          cpu := 0
          user := "unknown"
          command := jsAt parts 0 }
    else none

/-- The record list accumulated by `getWindowsProcesses` before sorting. -/
def parseWindowsRecords (stdout : String) : List WinProc :=
  ((jsSplit (jsTrim stdout) "\n").drop 1).filterMap windowsLineRecord

/-- The Windows sort comparator of processes.js lines 221-232: `memory`
descending, `name` ascending, `pid` ascending, and every other key (including
`cpu`) falls back to `memory` descending because tasklist reports no CPU
figures. -/
def winRel (sortBy : String) (a b : WinProc) : Prop :=
  if sortBy = "memory" then b.memory ≤ a.memory
  else if sortBy = "name" then nameLe a.name b.name
  else if sortBy = "pid" then pidLe a.pid b.pid
  else b.memory ≤ a.memory

instance (sortBy : String) (a b : WinProc) : Decidable (winRel sortBy a b) := by
  unfold winRel
  split_ifs <;> infer_instance

/-- Embedding of the parsing and sorting core of `getWindowsProcesses`
(processes.js lines 183-235) applied to the captured `tasklist` output. -/
def getWindowsProcesses (stdout : String) (limit : ℕ) (sortBy : String) : List WinProc :=
  ((parseWindowsRecords stdout).insertionSort (winRel sortBy)).take limit

/-! ### Broadcast scheduler and subscription registry
(`src/server/src/utils/monitor.js`)

The monitor is modelled over abstract collector payload types `κ` (CPU), `μ`
(memory) and `π` (one process record), since it treats the collector results
opaquely. -/

/-- Outcome of one collector as captured by `Promise.allSettled`: fulfilled
with a value, or rejected with `reason?.message` (which may be absent). -/
inductive Settled (α : Type) where
  | fulfilled (v : α) : Settled α
  | rejected (msg : Option String) : Settled α
deriving DecidableEq, Repr

/-- The `reason?.message` of a settled outcome (`none` when fulfilled or when
the rejection reason carries no message). -/
def Settled.reasonMessage {α : Type} : Settled α → Option String
  | .fulfilled _ => none
  | .rejected m => m

/-- The value of a settled outcome (`status === "fulfilled" ? value : null`). -/
def Settled.value? {α : Type} : Settled α → Option α
  | .fulfilled v => some v
  | .rejected _ => none

/-- Model of `[...].filter(Boolean)` on the error-message slots: `null` /
`undefined` and the empty string are falsy and dropped. -/
def truthyStrings (l : List (Option String)) : List String :=
  l.filterMap (fun o =>
    match o with
    | some s => if s = "" then none else some s
    | none => none)

/-- A `systemUpdate` message.  The broadcast path always carries `processes`
and `errors`; the on-demand path (`sendSystemUpdate`) omits both keys, which
is modelled by `none` at the message level. -/
structure Update (κ μ π : Type) where
  type : String
  timestamp : ℕ
  cpu : Option κ
  memory : Option μ
  processes : Option (List π)
  errors : Option (List String)
deriving DecidableEq, Repr

/-- Snapshot assembly of `broadcastSystemUpdate` (monitor.js lines 106-125):
a fulfilled collector populates its field, a rejected CPU / memory collector
yields `null`, a rejected process collector yields the empty list, and the
error list keeps exactly the truthy rejection messages. -/
def buildUpdate {κ μ π : Type} (ts : ℕ) (c : Settled κ) (m : Settled μ)
    (p : Settled (List π)) : Update κ μ π :=
  { type := "systemUpdate"
    timestamp := ts
    cpu := c.value?
    memory := m.value?
    processes := some
      (match p with
       | .fulfilled v => v
       | .rejected _ => [])
    errors := some (truthyStrings [c.reasonMessage, m.reasonMessage, p.reasonMessage]) }

/-- One connected WebSocket client as the registry sees it: an identifying
handle, the `ws.subscribed` flag, the `ws.readyState`, and whether `ws.send`
would throw during this delivery. -/
structure Chan where
  id : ℕ
  subscribed : Bool
  readyState : ℕ
  sendThrows : Bool
deriving DecidableEq, Repr

/-- The light update of `sendSystemUpdate` (monitor.js lines 157-162): only
`type`, `timestamp`, `cpu` and `memory`; no `processes` key, no `errors`
key. -/
def lightUpdate {κ μ : Type} (π : Type) (ts : ℕ) (c : Settled κ) (m : Settled μ) :
    Update κ μ π :=
  { type := "systemUpdate"
    timestamp := ts
    cpu := c.value?
    memory := m.value?
    processes := none
    errors := none }

/-- Embedding of `sendSystemUpdate` (monitor.js lines 148-168): nothing is
sent when `readyState !== 1`; a throwing `ws.send` is caught and logged, so
nothing is delivered and the registry is untouched.  The subscription flag is
never consulted. -/
def sendSystemUpdate {κ μ : Type} (π : Type) (ts : ℕ) (c : Settled κ) (m : Settled μ)
    (w : Chan) : Option (Update κ μ π) :=
  if w.readyState = 1 then
    (if w.sendThrows then none else some (lightUpdate π ts c m))
  else none

/-- Result of one firing of the broadcast interval: the registry afterwards,
the `(channel id, message)` deliveries, and how often each collector was
invoked during the tick. -/
structure TickResult (κ μ π : Type) where
  registry : List Chan
  deliveries : List (ℕ × Update κ μ π)
  cpuCalls : ℕ
  memCalls : ℕ
  procCalls : ℕ
deriving DecidableEq, Repr

/-- Embedding of one broadcast tick (monitor.js lines 81-91 and 99-141):
skip everything when no client is connected; otherwise compute the subscribed
clients and skip everything when there is none; otherwise invoke the three
collectors once each, build the snapshot, deliver it to every subscribed
client whose `readyState` is OPEN and whose `send` does not throw, and remove
from the registry exactly the subscribed OPEN clients whose `send` threw. -/
def monitorTick {κ μ π : Type} (ts : ℕ) (c : Settled κ) (m : Settled μ)
    (p : Settled (List π)) (conn : List Chan) : TickResult κ μ π :=
  if conn.length = 0 then ⟨conn, [], 0, 0, 0⟩
  else
    let subs := conn.filter (fun w => w.subscribed)
    if subs.length = 0 then ⟨conn, [], 0, 0, 0⟩
    else
      let u := buildUpdate ts c m p
      { registry := conn.filter
          (fun w => !(w.subscribed && w.readyState == 1 && w.sendThrows))
        deliveries := (subs.filter (fun w => w.readyState == 1 && !w.sendThrows)).map
          (fun w => (w.id, u))
        cpuCalls := 1
        memCalls := 1
        procCalls := 1 }

/-- A message frame arriving from a client (`handleClientMessage`,
monitor.js lines 52-69).  The `requestUpdate` constructor also carries the
collector outcomes and timestamp the immediate snapshot would observe. -/
inductive ClientMsg (κ μ : Type) where
  | subscribeIntent : ClientMsg κ μ
  | unsubscribeIntent : ClientMsg κ μ
  | requestUpdate (ts : ℕ) (c : Settled κ) (m : Settled μ) : ClientMsg κ μ
deriving DecidableEq, Repr

/-- Embedding of `handleClientMessage`: flips the `subscribed` flag, or
answers a `requestUpdate` through `sendSystemUpdate`; the registry membership
of the channel is never touched here. -/
def handleClientMessage {κ μ : Type} (π : Type) (w : Chan) :
    ClientMsg κ μ → Chan × Option (Update κ μ π)
  | .subscribeIntent => ({ w with subscribed := true }, none)
  | .unsubscribeIntent => ({ w with subscribed := false }, none)
  | .requestUpdate ts c m => (w, sendSystemUpdate π ts c m w)

/-- Every event that can touch the connected-channel registry
(`startMonitoring`, monitor.js lines 17-45, plus the broadcast tick). -/
inductive MonitorEv (κ μ π : Type) where
  | connect (c : Chan) : MonitorEv κ μ π
  | closeEv (id : ℕ) : MonitorEv κ μ π
  | errorEv (id : ℕ) : MonitorEv κ μ π
  | message (id : ℕ) (msg : ClientMsg κ μ) : MonitorEv κ μ π
  | tick (ts : ℕ) (c : Settled κ) (m : Settled μ) (p : Settled (List π)) : MonitorEv κ μ π

/-- Registry transition function: `connection` adds the channel, `close` and
`error` remove it, client messages only update flags / answer requests, and a
broadcast tick removes exactly the channels whose push threw. -/
def monitorStep {κ μ π : Type} (conn : List Chan) : MonitorEv κ μ π → List Chan
  | .connect c => conn ++ [c]
  | .closeEv i => conn.filter (fun w => w.id != i)
  | .errorEv i => conn.filter (fun w => w.id != i)
  | .message i msg => conn.map (fun w =>
      if w.id = i then (handleClientMessage π w msg).1 else w)
  | .tick ts c m p => (monitorTick ts c m p conn).registry

/-! ### Client reconnection manager (`src/src/App.tsx`, `useWebSocket`) -/

/-- The reconnection-relevant state of the `useWebSocket` hook: the exposed
`connected` flag, the `reconnectAttempts` counter, and whether a reconnect
timer is currently pending. -/
structure WSClient where
  connected : Bool
  reconnectAttempts : ℕ
  timerPending : Bool
deriving DecidableEq, Repr

/-- `maxReconnectAttempts` of the hook. -/
def maxReconnectAttempts : ℕ := 5

/-- `reconnectDelay` of the hook, in milliseconds. -/
def reconnectDelay : ℕ := 3000

/-- Embedding of the `ws.onopen` handler: set `connected`, reset the retry
counter to zero, and send exactly one `subscribe` frame. -/
def onOpen (s : WSClient) : WSClient × List String :=
  ({ s with connected := true, reconnectAttempts := 0 }, ["subscribe"])

/-- Embedding of the `ws.onclose` handler: below the maximum retry count it
increments the counter and schedules exactly one reconnect after
`reconnectDelay` ms (returned as `some delay`); otherwise it schedules
nothing (`none`) and only logs. -/
def onClose (s : WSClient) : WSClient × Option ℕ :=
  if s.reconnectAttempts < maxReconnectAttempts then
    ({ connected := false, reconnectAttempts := s.reconnectAttempts + 1,
       timerPending := true }, some reconnectDelay)
  else
    ({ s with connected := false }, none)

/-- The terminal give-up condition the hook reaches after exhausting its
retries: permanently disconnected, no timer pending, counter at the
maximum. -/
def gaveUp (s : WSClient) : Prop :=
  s.connected = false ∧ s.timerPending = false ∧ s.reconnectAttempts = maxReconnectAttempts

instance (s : WSClient) : Decidable (gaveUp s) :=
  inferInstanceAs (Decidable (_ ∧ _ ∧ _))

/-- A run of `n` consecutive failure cycles starting from a freshly opened
connection: each cycle is one unexpected close followed (when one was
scheduled) by the reconnect timer firing.  Returns the state after the run
and the total number of reconnect attempts that were scheduled. -/
def runCloses : ℕ → WSClient × ℕ
  | 0 => (⟨true, 0, false⟩, 0)
  | n + 1 =>
    let prev := runCloses n
    let step := onClose prev.1
    ({ step.1 with timerPending := false },
     prev.2 + (if step.2.isSome then 1 else 0))

/-! ### Generic sorting lemmas

`Array.prototype.sort` only guarantees a comparator-sorted permutation, so it
is modelled by `List.insertionSort`.  The comparator relations above are not
globally transitive (a `NaN` pid ties with everything), so sortedness is
proved relative to a predicate `P` satisfied by every element actually being
sorted. -/

theorem sorted_orderedInsert_of {α : Type} (r : α → α → Prop) [DecidableRel r]
    (P : α → Prop) (tot : ∀ a b, P a → P b → r a b ∨ r b a)
    (tr : ∀ a b c, P a → P b → P c → r a b → r b c → r a c) :
    ∀ (l : List α) (a : α), P a → (∀ x ∈ l, P x) → l.Sorted r →
      (l.orderedInsert r a).Sorted r
  | [], a, _, _, _ => by simp
  | b :: t, a, ha, hl, hs => by
    simp only [List.orderedInsert]
    have hsc := List.sorted_cons.mp hs
    by_cases h : r a b
    · rw [if_pos h]
      rw [List.sorted_cons]
      refine ⟨?_, hs⟩
      intro x hx
      rcases List.mem_cons.mp hx with rfl | hx
      · exact h
      · exact tr a b x ha (hl b (List.mem_cons_self b t))
          (hl x (List.mem_cons_of_mem b hx)) h (hsc.1 x hx)
    · rw [if_neg h]
      have hba : r b a := (tot a b ha (hl b (List.mem_cons_self b t))).resolve_left h
      have htail := sorted_orderedInsert_of r P tot tr t a ha
        (fun x hx => hl x (List.mem_cons_of_mem b hx)) hsc.2
      rw [List.sorted_cons]
      refine ⟨?_, htail⟩
      intro x hx
      rcases (List.mem_orderedInsert r).mp hx with rfl | hx
      · exact hba
      · exact hsc.1 x hx

theorem sorted_insertionSort_of {α : Type} (r : α → α → Prop) [DecidableRel r]
    (P : α → Prop) (tot : ∀ a b, P a → P b → r a b ∨ r b a)
    (tr : ∀ a b c, P a → P b → P c → r a b → r b c → r a c) :
    ∀ l : List α, (∀ x ∈ l, P x) → (l.insertionSort r).Sorted r
  | [], _ => by simp
  | a :: t, hl => by
    simp only [List.insertionSort]
    have hmem : ∀ x ∈ t.insertionSort r, P x := fun x hx =>
      hl x (List.mem_cons_of_mem a ((List.perm_insertionSort r t).mem_iff.mp hx))
    exact sorted_orderedInsert_of r P tot tr _ a (hl a (List.mem_cons_self a t)) hmem
      (sorted_insertionSort_of r P tot tr t (fun x hx => hl x (List.mem_cons_of_mem a hx)))

theorem mem_of_mem_sortTake {α : Type} (r : α → α → Prop) [DecidableRel r]
    (l : List α) (n : ℕ) (x : α) (hx : x ∈ (l.insertionSort r).take n) : x ∈ l :=
  (List.perm_insertionSort r l).mem_iff.mp ((List.take_sublist n _).subset hx)

/-! ### Claim theorems -/

/-- Claim C1: on a broadcast tick, if the number of channels currently marked
subscribed is zero, no collector is invoked, nothing is delivered, and the
registry is untouched (monitor.js lines 81-92 and 99-104 both return before
`Promise.allSettled` runs the collectors). -/
theorem broadcastTick_no_collector_work_when_unsubscribed {κ μ π : Type}
    (ts : ℕ) (c : Settled κ) (m : Settled μ) (p : Settled (List π)) (conn : List Chan)
    (h : conn.filter (fun w => w.subscribed) = []) :
    (monitorTick ts c m p conn).cpuCalls = 0 ∧
    (monitorTick ts c m p conn).memCalls = 0 ∧
    (monitorTick ts c m p conn).procCalls = 0 ∧
    (monitorTick ts c m p conn).deliveries = [] ∧
    (monitorTick ts c m p conn).registry = conn := by
  unfold monitorTick
  by_cases h0 : conn.length = 0
  · rw [if_pos h0]
    exact ⟨rfl, rfl, rfl, rfl, rfl⟩
  · rw [if_neg h0]
    simp only [h, List.length_nil, if_pos rfl]
    exact ⟨rfl, rfl, rfl, rfl, rfl⟩

/-- Witness for C1: a registry holding one connected but unsubscribed channel
produces a tick with zero collector invocations. -/
theorem broadcastTick_no_collector_work_when_unsubscribed_witness :
    (monitorTick (κ := ℕ) (μ := ℕ) (π := ℕ) 0 (.fulfilled 1) (.fulfilled 2)
      (.fulfilled [3]) [⟨0, false, 1, false⟩]).cpuCalls = 0 ∧
    (monitorTick (κ := ℕ) (μ := ℕ) (π := ℕ) 0 (.fulfilled 1) (.fulfilled 2)
      (.fulfilled [3]) [⟨0, false, 1, false⟩]).memCalls = 0 ∧
    (monitorTick (κ := ℕ) (μ := ℕ) (π := ℕ) 0 (.fulfilled 1) (.fulfilled 2)
      (.fulfilled [3]) [⟨0, false, 1, false⟩]).procCalls = 0 ∧
    (monitorTick (κ := ℕ) (μ := ℕ) (π := ℕ) 0 (.fulfilled 1) (.fulfilled 2)
      (.fulfilled [3]) [⟨0, false, 1, false⟩]).deliveries = [] ∧
    (monitorTick (κ := ℕ) (μ := ℕ) (π := ℕ) 0 (.fulfilled 1) (.fulfilled 2)
      (.fulfilled [3]) [⟨0, false, 1, false⟩]).registry = [⟨0, false, 1, false⟩] :=
  broadcastTick_no_collector_work_when_unsubscribed 0 (.fulfilled 1) (.fulfilled 2)
    (.fulfilled [3]) [⟨0, false, 1, false⟩] (by decide)

/-- Claim C2 counterexample: a process-collector failure does not null the
`processes` field — `broadcastSystemUpdate` substitutes the empty list
(`topProcesses.status === "fulfilled" ? topProcesses.value : []`), so the
claim that a single collector failure nulls that collector's field is false
for the process collector. -/
theorem snapshot_process_failure_not_nulled :
    (buildUpdate (κ := ℕ) (μ := ℕ) (π := ℕ) 0 (.fulfilled 1) (.fulfilled 2)
      (.rejected (some "proc failed"))).processes = some [] ∧
    (buildUpdate (κ := ℕ) (μ := ℕ) (π := ℕ) 0 (.fulfilled 1) (.fulfilled 2)
      (.rejected (some "proc failed"))).processes ≠ none ∧
    (buildUpdate (κ := ℕ) (μ := ℕ) (π := ℕ) 0 (.fulfilled 1) (.fulfilled 2)
      (.rejected (some "proc failed"))).errors = some ["proc failed"] := by
  refine ⟨rfl, ?_, rfl⟩
  simp [buildUpdate]

/-- Claim C2 (amended): with exactly one collector failing and a non-empty
failure message, the snapshot is still assembled; a CPU or memory failure
nulls only that field, a process failure yields the empty list, the other
fields stay populated, and the error list is exactly the one message. -/
theorem snapshot_single_collector_failure {κ μ π : Type} (ts : ℕ) (cv : κ) (mv : μ)
    (pv : List π) (msg : String) (hmsg : msg ≠ "") :
    buildUpdate ts (Settled.rejected (some msg) : Settled κ) (.fulfilled mv)
        (.fulfilled pv) =
      ⟨"systemUpdate", ts, none, some mv, some pv, some [msg]⟩ ∧
    buildUpdate ts (.fulfilled cv) (Settled.rejected (some msg) : Settled μ)
        (.fulfilled pv) =
      ⟨"systemUpdate", ts, some cv, none, some pv, some [msg]⟩ ∧
    buildUpdate ts (.fulfilled cv) (.fulfilled mv)
        (Settled.rejected (some msg) : Settled (List π)) =
      ⟨"systemUpdate", ts, some cv, some mv, some ([] : List π), some [msg]⟩ := by
  refine ⟨?_, ?_, ?_⟩ <;>
    simp [buildUpdate, truthyStrings, Settled.value?, Settled.reasonMessage, hmsg]

/-- Witness for the amended C2 at concrete collector outcomes. -/
theorem snapshot_single_collector_failure_witness :
    buildUpdate (κ := ℕ) (μ := ℕ) (π := ℕ) 0 (Settled.rejected (some "boom"))
        (.fulfilled 2) (.fulfilled [3]) =
      ⟨"systemUpdate", 0, none, some 2, some [3], some ["boom"]⟩ ∧
    buildUpdate (κ := ℕ) (μ := ℕ) (π := ℕ) 0 (.fulfilled 1)
        (Settled.rejected (some "boom")) (.fulfilled [3]) =
      ⟨"systemUpdate", 0, some 1, none, some [3], some ["boom"]⟩ ∧
    buildUpdate (κ := ℕ) (μ := ℕ) (π := ℕ) 0 (.fulfilled 1) (.fulfilled 2)
        (Settled.rejected (some "boom")) =
      ⟨"systemUpdate", 0, some 1, some 2, some [], some ["boom"]⟩ :=
  snapshot_single_collector_failure 0 1 2 [3] "boom" (by decide)

/-- Bounds relating the rounding of a difference to the difference of the
roundings: they can disagree by at most one. -/
theorem jsRound_sub_bounds (a b : ℚ) :
    jsRound a - jsRound b - 1 ≤ jsRound (a - b) ∧
    jsRound (a - b) ≤ jsRound a - jsRound b + 1 := by
  have hA1 : ((⌊a + 1/2⌋ : ℤ) : ℚ) ≤ a + 1/2 := Int.floor_le _
  have hA2 : a + 1/2 - 1 < ((⌊a + 1/2⌋ : ℤ) : ℚ) := Int.sub_one_lt_floor _
  have hB1 : ((⌊b + 1/2⌋ : ℤ) : ℚ) ≤ b + 1/2 := Int.floor_le _
  have hB2 : b + 1/2 - 1 < ((⌊b + 1/2⌋ : ℤ) : ℚ) := Int.sub_one_lt_floor _
  have hC1 : ((⌊(a - b) + 1/2⌋ : ℤ) : ℚ) ≤ (a - b) + 1/2 := Int.floor_le _
  have hC2 : (a - b) + 1/2 - 1 < ((⌊(a - b) + 1/2⌋ : ℤ) : ℚ) := Int.sub_one_lt_floor _
  simp only [jsRound]
  constructor
  · have hq : ((⌊a + 1/2⌋ - ⌊b + 1/2⌋ - 1 : ℤ) : ℚ) < ((⌊a - b + 1/2⌋ : ℤ) : ℚ) + 1 := by
      push_cast
      linarith
    have hz : (⌊a + 1/2⌋ - ⌊b + 1/2⌋ - 1 : ℤ) < ⌊a - b + 1/2⌋ + 1 := by exact_mod_cast hq
    omega
  · have hq : ((⌊a - b + 1/2⌋ : ℤ) : ℚ) < ((⌊a + 1/2⌋ - ⌊b + 1/2⌋ + 1 : ℤ) : ℚ) + 1 := by
      push_cast
      linarith
    have hz : (⌊a - b + 1/2⌋ : ℤ) < ⌊a + 1/2⌋ - ⌊b + 1/2⌋ + 1 + 1 := by exact_mod_cast hq
    omega

/-- Claim C3 counterexample: with `os.totalmem() = 2097152` bytes (2 MiB) and
`os.freemem() = 1572864` bytes (1.5 MiB), the sample carries `total = 2`,
`free = 2`, `used = 1` and `percentage = 25`, so at the megabyte level
`used ≠ total - free` (1 ≠ 0) and
`percentage ≠ round(used / total * 100)` (25 ≠ 50): the identities claimed
for the MB fields hold only for the underlying byte counters. -/
theorem memory_sample_mb_identity_fails :
    (getMemoryUsage 2097152 1572864).used ≠
      (getMemoryUsage 2097152 1572864).total - (getMemoryUsage 2097152 1572864).free ∧
    (getMemoryUsage 2097152 1572864).percentage ≠
      JNum.num ((jsRound (((getMemoryUsage 2097152 1572864).used : ℚ) /
        ((getMemoryUsage 2097152 1572864).total : ℚ) * 100) : ℤ) : ℚ) := by
  have htot : (getMemoryUsage 2097152 1572864).total = 2 := by
    simp only [getMemoryUsage, jsRound]
    norm_num
  have hfree : (getMemoryUsage 2097152 1572864).free = 2 := by
    simp only [getMemoryUsage, jsRound]
    norm_num
  have hused : (getMemoryUsage 2097152 1572864).used = 1 := by
    simp only [getMemoryUsage, jsRound]
    norm_num
  have hperc : (getMemoryUsage 2097152 1572864).percentage = JNum.num 25 := by
    simp only [getMemoryUsage, jnDivQ, jnMul100, jnRound, jsRound]
    norm_num
  refine ⟨?_, ?_⟩
  · rw [htot, hfree, hused]
    decide
  · rw [hperc, htot, hused]
    have h50 : (jsRound (((1 : ℤ) : ℚ) / ((2 : ℤ) : ℚ) * 100) : ℤ) = 50 := by
      simp only [jsRound]
      norm_num
    rw [h50]
    decide

/-- Claim C3 (amended): the identities hold for the byte counters the sample
is computed from — `usedBytes = totalBytes - freeBytes` by construction and
`percentage = round(usedBytes / totalBytes * 100)` — while the MB fields
`total`, `free`, `used` are independent roundings of those counters, so at MB
granularity `used` can differ from `total - free`, by at most 1. -/
theorem memory_sample_byte_level_identities (t f : ℕ) (ht : 0 < t) :
    (getMemoryUsage t f).percentage =
      JNum.num ((jsRound ((((t : ℚ) - (f : ℚ)) / (t : ℚ)) * 100) : ℤ) : ℚ) ∧
    (getMemoryUsage t f).total - (getMemoryUsage t f).free - 1 ≤
      (getMemoryUsage t f).used ∧
    (getMemoryUsage t f).used ≤
      (getMemoryUsage t f).total - (getMemoryUsage t f).free + 1 := by
  have htq : ((t : ℚ)) ≠ 0 := by
    exact_mod_cast ht.ne'
  have harg : (((t : ℤ) - (f : ℤ) : ℤ) : ℚ) = (t : ℚ) - (f : ℚ) := by push_cast; ring
  refine ⟨?_, ?_, ?_⟩
  · simp only [getMemoryUsage, jnDivQ, jnMul100, jnRound, harg, if_neg htq]
  · have hb := (jsRound_sub_bounds ((t : ℚ) / 1024 / 1024) ((f : ℚ) / 1024 / 1024)).1
    have heq : (((t : ℤ) - (f : ℤ) : ℤ) : ℚ) / 1024 / 1024 =
        (t : ℚ) / 1024 / 1024 - (f : ℚ) / 1024 / 1024 := by push_cast; ring
    simpa only [getMemoryUsage, heq] using hb
  · have hb := (jsRound_sub_bounds ((t : ℚ) / 1024 / 1024) ((f : ℚ) / 1024 / 1024)).2
    have heq : (((t : ℤ) - (f : ℤ) : ℤ) : ℚ) / 1024 / 1024 =
        (t : ℚ) / 1024 / 1024 - (f : ℚ) / 1024 / 1024 := by push_cast; ring
    simpa only [getMemoryUsage, heq] using hb

/-- Witness for the amended C3 at the counterexample byte counters:
percentage is the byte-level rounding and the MB fields differ by exactly the
permitted one. -/
theorem memory_sample_byte_level_identities_witness :
    (getMemoryUsage 2097152 1572864).percentage =
      JNum.num ((jsRound ((((2097152 : ℚ) - (1572864 : ℚ)) / (2097152 : ℚ)) * 100) : ℤ) : ℚ) ∧
    (getMemoryUsage 2097152 1572864).total - (getMemoryUsage 2097152 1572864).free - 1 ≤
      (getMemoryUsage 2097152 1572864).used ∧
    (getMemoryUsage 2097152 1572864).used ≤
      (getMemoryUsage 2097152 1572864).total - (getMemoryUsage 2097152 1572864).free + 1 :=
  memory_sample_byte_level_identities 2097152 1572864 (by norm_num)

/-- Supporting fact for C4: whenever the summed tick delta is non-zero, the
clamp does its job — the usage value is a finite integer in `[0, 100]`,
whatever the idle delta is. -/
theorem cpu_usage_bounded_when_ticks_advance (c1 c2 : List CpuTimes)
    (h : totalTickDelta c1 c2 ≠ 0) :
    ∃ n : ℤ, getCPUPercent c1 c2 = JNum.num (n : ℚ) ∧ 0 ≤ n ∧ n ≤ 100 := by
  have hq : ((totalTickDelta c1 c2 : ℤ) : ℚ) ≠ 0 := Int.cast_ne_zero.mpr h
  refine ⟨max 0 (min 100 (100 - jsRound (((totalIdleDelta c1 c2 : ℤ) : ℚ) /
    ((totalTickDelta c1 c2 : ℤ) : ℚ) * 100))), ?_, le_max_left _ _,
    max_le (by norm_num) ((min_le_left _ _).trans (by norm_num))⟩
  simp only [getCPUPercent, jnDivInt, jnDivQ, if_neg hq, jnMul100, jnRound, jnSub100,
    jnMin100, jnMax0]
  congr 1
  push_cast
  rfl

/-- Claim C4 (code bug): two equal tick-counter readings (zero idle delta and
zero total delta) make `totalIdle / totalTick` evaluate to `0 / 0 = NaN`,
which survives `Math.round`, `100 - x`, `Math.min` and `Math.max` unchanged,
so the resolved usage value is `NaN` — not an integer in `[0, 100]` as the
spec requires of the clamp. -/
theorem cpu_usage_nan_on_zero_tick_delta :
    getCPUPercent [⟨1, 2, 3, 4, 5⟩] [⟨1, 2, 3, 4, 5⟩] = JNum.nan := by decide

/-- Truthiness of a pid value characterised: truthy exactly when it parsed to
a non-zero integer (`NaN` and `0` are falsy). -/
theorem pidTruthy_iff (o : Option ℤ) :
    pidTruthy o = true ↔ ∃ v, o = some v ∧ v ≠ 0 := by
  cases o with
  | none => simp [pidTruthy]
  | some v => simp [pidTruthy]

/-- Every record surviving the Unix per-line filter has a pid that parsed to
a non-zero integer (`if (process && process.pid)` drops `NaN` and `0`). -/
theorem parseUnixRecords_pid_nonzero (stdout cmd : String) :
    ∀ r ∈ parseUnixRecords stdout cmd, ∃ v, r.pid = some v ∧ v ≠ 0 := by
  intro r hr
  obtain ⟨raw, _, hres⟩ := List.mem_filterMap.mp hr
  simp only [unixLineRecord] at hres
  by_cases h0 : jsTrim raw = ""
  · rw [if_pos h0] at hres
    exact absurd hres (by simp)
  · rw [if_neg h0] at hres
    obtain ⟨p, _, hcond⟩ := Option.bind_eq_some.mp hres
    by_cases ht : pidTruthy p.pid = true
    · rw [if_pos ht] at hcond
      obtain rfl := Option.some.inj hcond
      exact (pidTruthy_iff _).mp ht
    · rw [if_neg ht] at hcond
      exact absurd hcond (by simp)

/-- Claim C5 counterexample: the Windows path validates nothing — a
`tasklist` line whose PID column is not numeric still contributes a record,
whose `pid` is `NaN` (`none`), so not every record of a parsed batch carries
a positive integer pid. -/
theorem windows_unparsable_pid_record_kept :
    ((getWindowsProcesses
        "Image Name,PID,Session Name,Session#,Mem Usage\n\"bad.exe\",\"xyz\",\"Console\",\"1\",\"1,000 K\""
        10 "pid").map (fun r => r.pid) = [none]) ∧
    ((getWindowsProcesses
        "Image Name,PID,Session Name,Session#,Mem Usage\n\"bad.exe\",\"xyz\",\"Console\",\"1\",\"1,000 K\""
        10 "pid").all (fun r => r.pid.isSome)) = false := by
  constructor
  · decide
  · decide

/-- Claim C5 (amended): on the POSIX paths every returned record's pid parsed
to a non-zero integer (lines whose pid token parses to `NaN` or `0` are
dropped; a negative token would survive the truthiness test), and
re-filtering any batch of truthy-pid records is a fixed point.  The Windows
path performs no pid validation (see the counterexample). -/
theorem process_pid_nonzero_and_filter_fixed_point :
    (∀ stdout cmd limit sortBy, ∀ r ∈ parseUnixProcesses stdout limit sortBy cmd,
      ∃ v, r.pid = some v ∧ v ≠ 0) ∧
    (∀ l : List UnixProc, (∀ r ∈ l, pidTruthy r.pid = true) →
      l.filter (fun r => pidTruthy r.pid) = l) := by
  constructor
  · intro stdout cmd limit sortBy r hr
    exact parseUnixRecords_pid_nonzero stdout cmd r (mem_of_mem_sortTake _ _ _ _ hr)
  · intro l hl
    exact List.filter_eq_self.mpr hl

/-- Witness for the amended C5: a concrete `ps -eo` style batch — its head
record has the non-zero pid 7, and the batch re-filters to itself. -/
theorem process_pid_nonzero_and_filter_fixed_point_witness :
    (∃ v, ((parseUnixProcesses "PID PPID USER CPU PMEM COMM\n7 1 root 0.5 1.2 bash" 5 "pid"
      "ps -eo pid,ppid,user,cpu,pmem,comm,args").head
        (by decide)).pid = some v ∧ v ≠ 0) ∧
    ([⟨some 7, 1, "root", 0, 0, 0, 0, 0, "", "", "", "bash", "bash"⟩] :
        List UnixProc).filter (fun r => pidTruthy r.pid) =
      [⟨some 7, 1, "root", 0, 0, 0, 0, 0, "", "", "", "bash", "bash"⟩] :=
  ⟨process_pid_nonzero_and_filter_fixed_point.1
      "PID PPID USER CPU PMEM COMM\n7 1 root 0.5 1.2 bash"
      "ps -eo pid,ppid,user,cpu,pmem,comm,args" 5 "pid" _ (List.head_mem _),
    process_pid_nonzero_and_filter_fixed_point.2 _ (by decide)⟩

/-- Sortedness is preserved by `slice(0, limit)`. -/
theorem sorted_take {α : Type} {r : α → α → Prop} {l : List α} (h : l.Sorted r) (n : ℕ) :
    (l.take n).Sorted r :=
  List.Pairwise.sublist (List.take_sublist n l) h

/-- The Unix comparator at key `cpu` (the `default` branch). -/
theorem unixRel_cpu_iff (a b : UnixProc) : unixRel "cpu" a b ↔ b.cpu ≤ a.cpu := by
  unfold unixRel
  rw [if_neg (by decide), if_neg (by decide), if_neg (by decide)]

/-- The Unix comparator at key `memory`. -/
theorem unixRel_memory_iff (a b : UnixProc) : unixRel "memory" a b ↔ b.memory ≤ a.memory := by
  unfold unixRel
  rw [if_pos rfl]

/-- The Unix comparator at key `name`. -/
theorem unixRel_name_iff (a b : UnixProc) : unixRel "name" a b ↔ nameLe a.name b.name := by
  unfold unixRel
  rw [if_neg (by decide), if_pos rfl]

/-- The Unix comparator at key `pid`. -/
theorem unixRel_pid_iff (a b : UnixProc) : unixRel "pid" a b ↔ pidLe a.pid b.pid := by
  unfold unixRel
  rw [if_neg (by decide), if_neg (by decide), if_pos rfl]

/-- The Windows comparator at key `cpu` falls back to memory-descending
(tasklist reports no CPU figures). -/
theorem winRel_cpu_iff (a b : WinProc) : winRel "cpu" a b ↔ b.memory ≤ a.memory := by
  unfold winRel
  rw [if_neg (by decide), if_neg (by decide), if_neg (by decide)]

/-- The Windows comparator at key `memory`. -/
theorem winRel_memory_iff (a b : WinProc) : winRel "memory" a b ↔ b.memory ≤ a.memory := by
  unfold winRel
  rw [if_pos rfl]

/-- The Windows comparator at key `name`. -/
theorem winRel_name_iff (a b : WinProc) : winRel "name" a b ↔ nameLe a.name b.name := by
  unfold winRel
  rw [if_neg (by decide), if_pos rfl]

/-- The Windows comparator at key `pid`. -/
theorem winRel_pid_iff (a b : WinProc) : winRel "pid" a b ↔ pidLe a.pid b.pid := by
  unfold winRel
  rw [if_neg (by decide), if_neg (by decide), if_pos rfl]

/-- Sortedness of the Unix path relative to any relation `S` pointwise
equivalent to the comparator, given totality and transitivity of the
comparator on a predicate `P` holding for every parsed record. -/
theorem parseUnixProcesses_sorted (stdout : String) (limit : ℕ) (k cmd : String)
    (S : UnixProc → UnixProc → Prop) (hiff : ∀ a b, unixRel k a b ↔ S a b)
    (P : UnixProc → Prop) (hmem : ∀ r ∈ parseUnixRecords stdout cmd, P r)
    (tot : ∀ a b, P a → P b → unixRel k a b ∨ unixRel k b a)
    (tr : ∀ a b c, P a → P b → P c → unixRel k a b → unixRel k b c → unixRel k a c) :
    (parseUnixProcesses stdout limit k cmd).Sorted S := by
  have hs := sorted_insertionSort_of (unixRel k) P tot tr (parseUnixRecords stdout cmd) hmem
  simp only [parseUnixProcesses]
  exact List.Pairwise.imp (fun {a b} h => (hiff a b).mp h) (sorted_take hs limit)

/-- Sortedness of the Windows path relative to any relation `S` pointwise
equivalent to the comparator, given totality and transitivity of the
comparator on a predicate `P` holding for every parsed record. -/
theorem getWindowsProcesses_sorted (stdout : String) (limit : ℕ) (k : String)
    (S : WinProc → WinProc → Prop) (hiff : ∀ a b, winRel k a b ↔ S a b)
    (P : WinProc → Prop) (hmem : ∀ r ∈ parseWindowsRecords stdout, P r)
    (tot : ∀ a b, P a → P b → winRel k a b ∨ winRel k b a)
    (tr : ∀ a b c, P a → P b → P c → winRel k a b → winRel k b c → winRel k a c) :
    (getWindowsProcesses stdout limit k).Sorted S := by
  have hs := sorted_insertionSort_of (winRel k) P tot tr (parseWindowsRecords stdout) hmem
  simp only [getWindowsProcesses]
  exact List.Pairwise.imp (fun {a b} h => (hiff a b).mp h) (sorted_take hs limit)

/-- Every record produced by the Windows CSV parsing carries the hard-coded
`cpu: 0` (tasklist exposes no CPU usage). -/
theorem parseWindowsRecords_cpu_zero (stdout : String) :
    ∀ r ∈ parseWindowsRecords stdout, r.cpu = 0 := by
  intro r hr
  obtain ⟨raw, _, hres⟩ := List.mem_filterMap.mp hr
  simp only [windowsLineRecord] at hres
  by_cases h0 : jsTrim raw = ""
  · rw [if_pos h0] at hres
    exact absurd hres (by simp)
  · rw [if_neg h0] at hres
    by_cases h5 : 5 ≤ ((jsSplit (jsTrim raw) "\",\"").map stripQuotes).length
    · rw [if_pos h5] at hres
      obtain rfl := Option.some.inj hres
      rfl
    · rw [if_neg h5] at hres
      exact absurd hres (by simp)

/-- Claim C6 counterexample: on the Windows path with `sortKey = pid`, a
record whose pid token did not parse (`NaN`) compares as a tie with
everything (the ECMAScript sort treats a `NaN` comparator value as `0`), so
numeric pids around it can stay out of order: three lines with pid tokens
`5`, `xyz`, `1` come back in exactly that order, with `pid = 5` before
`pid = 1` — not numerically ascending. -/
theorem windows_pid_sort_broken_by_nan_pid :
    ((getWindowsProcesses
        "Image Name,PID,Session Name,Session#,Mem Usage\n\"a.exe\",\"5\",\"Console\",\"1\",\"100 K\"\n\"b.exe\",\"xyz\",\"Console\",\"1\",\"100 K\"\n\"c.exe\",\"1\",\"Console\",\"1\",\"100 K\""
        10 "pid").map (fun r => r.pid) = [some 5, none, some 1]) ∧
    ¬ ((getWindowsProcesses
        "Image Name,PID,Session Name,Session#,Mem Usage\n\"a.exe\",\"5\",\"Console\",\"1\",\"100 K\"\n\"b.exe\",\"xyz\",\"Console\",\"1\",\"100 K\"\n\"c.exe\",\"1\",\"Console\",\"1\",\"100 K\""
        10 "pid").Sorted (fun a b => pidLe a.pid b.pid)) := by
  constructor
  · decide
  · decide

/-- Claim C6 (amended): the returned sequence is ordered by the spec
comparator for every key on the POSIX path (for `pid` because the truthiness
filter leaves only parsed pids); on the Windows path for `memory` and `name`
always, for `cpu` vacuously (every record's cpu field is the hard-coded 0, so
any order is cpu-descending — the code actually sorts by memory descending
there), and for `pid` provided every record's pid token parsed — records with
unparsable pid can break the numeric order (see the counterexample). -/
theorem process_sort_matches_spec_comparators :
    (∀ stdout limit cmd, (parseUnixProcesses stdout limit "cpu" cmd).Sorted
      (fun a b => b.cpu ≤ a.cpu)) ∧
    (∀ stdout limit cmd, (parseUnixProcesses stdout limit "memory" cmd).Sorted
      (fun a b => b.memory ≤ a.memory)) ∧
    (∀ stdout limit cmd, (parseUnixProcesses stdout limit "name" cmd).Sorted
      (fun a b => nameLe a.name b.name)) ∧
    (∀ stdout limit cmd, (parseUnixProcesses stdout limit "pid" cmd).Sorted
      (fun a b => pidLe a.pid b.pid)) ∧
    (∀ stdout limit, (getWindowsProcesses stdout limit "cpu").Sorted
      (fun a b => b.cpu ≤ a.cpu)) ∧
    (∀ stdout limit, (getWindowsProcesses stdout limit "memory").Sorted
      (fun a b => b.memory ≤ a.memory)) ∧
    (∀ stdout limit, (getWindowsProcesses stdout limit "name").Sorted
      (fun a b => nameLe a.name b.name)) ∧
    (∀ stdout limit, (∀ r ∈ parseWindowsRecords stdout, (r.pid).isSome = true) →
      (getWindowsProcesses stdout limit "pid").Sorted
        (fun a b => pidLe a.pid b.pid)) := by
  refine ⟨?_, ?_, ?_, ?_, ?_, ?_, ?_, ?_⟩
  · intro stdout limit cmd
    refine parseUnixProcesses_sorted stdout limit "cpu" cmd _ unixRel_cpu_iff
      (fun _ => True) (fun _ _ => trivial) ?_ ?_
    · intro a b _ _
      rw [unixRel_cpu_iff, unixRel_cpu_iff]
      exact le_total _ _
    · intro a b c _ _ _ h1 h2
      rw [unixRel_cpu_iff] at h1 h2 ⊢
      exact le_trans h2 h1
  · intro stdout limit cmd
    refine parseUnixProcesses_sorted stdout limit "memory" cmd _ unixRel_memory_iff
      (fun _ => True) (fun _ _ => trivial) ?_ ?_
    · intro a b _ _
      rw [unixRel_memory_iff, unixRel_memory_iff]
      exact le_total _ _
    · intro a b c _ _ _ h1 h2
      rw [unixRel_memory_iff] at h1 h2 ⊢
      exact le_trans h2 h1
  · intro stdout limit cmd
    refine parseUnixProcesses_sorted stdout limit "name" cmd _ unixRel_name_iff
      (fun _ => True) (fun _ _ => trivial) ?_ ?_
    · intro a b _ _
      rw [unixRel_name_iff, unixRel_name_iff]
      exact le_total _ _
    · intro a b c _ _ _ h1 h2
      rw [unixRel_name_iff] at h1 h2 ⊢
      exact le_trans h1 h2
  · intro stdout limit cmd
    refine parseUnixProcesses_sorted stdout limit "pid" cmd _ unixRel_pid_iff
      (fun r => ∃ v, r.pid = some v ∧ v ≠ 0)
      (parseUnixRecords_pid_nonzero stdout cmd) ?_ ?_
    · rintro a b ⟨u, hu, _⟩ ⟨v, hv, _⟩
      rw [unixRel_pid_iff, unixRel_pid_iff, hu, hv]
      simp only [pidLe]
      exact le_total _ _
    · rintro a b c ⟨u, hu, _⟩ ⟨v, hv, _⟩ ⟨w, hw, _⟩ h1 h2
      rw [unixRel_pid_iff, hu, hv] at h1
      rw [unixRel_pid_iff, hv, hw] at h2
      rw [unixRel_pid_iff, hu, hw]
      simp only [pidLe] at h1 h2 ⊢
      exact le_trans h1 h2
  · intro stdout limit
    have hz : ∀ r ∈ getWindowsProcesses stdout limit "cpu", r.cpu = 0 := fun r hr =>
      parseWindowsRecords_cpu_zero stdout r (mem_of_mem_sortTake _ _ _ _ hr)
    refine List.pairwise_of_forall_mem_list ?_
    intro a ha b hb
    rw [hz a ha, hz b hb]
  · intro stdout limit
    refine getWindowsProcesses_sorted stdout limit "memory" _ winRel_memory_iff
      (fun _ => True) (fun _ _ => trivial) ?_ ?_
    · intro a b _ _
      rw [winRel_memory_iff, winRel_memory_iff]
      exact le_total _ _
    · intro a b c _ _ _ h1 h2
      rw [winRel_memory_iff] at h1 h2 ⊢
      exact le_trans h2 h1
  · intro stdout limit
    refine getWindowsProcesses_sorted stdout limit "name" _ winRel_name_iff
      (fun _ => True) (fun _ _ => trivial) ?_ ?_
    · intro a b _ _
      rw [winRel_name_iff, winRel_name_iff]
      exact le_total _ _
    · intro a b c _ _ _ h1 h2
      rw [winRel_name_iff] at h1 h2 ⊢
      exact le_trans h1 h2
  · intro stdout limit hall
    refine getWindowsProcesses_sorted stdout limit "pid" _ winRel_pid_iff
      (fun r => (r.pid).isSome = true) hall ?_ ?_
    · intro a b ha hb
      obtain ⟨u, hu⟩ := Option.isSome_iff_exists.mp ha
      obtain ⟨v, hv⟩ := Option.isSome_iff_exists.mp hb
      rw [winRel_pid_iff, winRel_pid_iff, hu, hv]
      simp only [pidLe]
      exact le_total _ _
    · intro a b c ha hb hc h1 h2
      obtain ⟨u, hu⟩ := Option.isSome_iff_exists.mp ha
      obtain ⟨v, hv⟩ := Option.isSome_iff_exists.mp hb
      obtain ⟨w, hw⟩ := Option.isSome_iff_exists.mp hc
      rw [winRel_pid_iff, hu, hv] at h1
      rw [winRel_pid_iff, hv, hw] at h2
      rw [winRel_pid_iff, hu, hw]
      simp only [pidLe] at h1 h2 ⊢
      exact le_trans h1 h2

/-- Witness for the amended C6, exercising the hypothesis of the Windows
`pid` case: a `tasklist` batch whose pid tokens all parse comes back sorted
ascending by pid. -/
theorem process_sort_matches_spec_comparators_witness :
    (getWindowsProcesses
      "Image Name,PID,Session Name,Session#,Mem Usage\n\"a.exe\",\"5\",\"Console\",\"1\",\"100 K\"\n\"c.exe\",\"1\",\"Console\",\"1\",\"100 K\""
      10 "pid").Sorted (fun a b => pidLe a.pid b.pid) :=
  process_sort_matches_spec_comparators.2.2.2.2.2.2.2
    "Image Name,PID,Session Name,Session#,Mem Usage\n\"a.exe\",\"5\",\"Console\",\"1\",\"100 K\"\n\"c.exe\",\"1\",\"Console\",\"1\",\"100 K\""
    10 (by decide)

/-- Claim C7: when one subscribed OPEN channel's `send` throws during a
broadcast tick, that channel (and only matching it) leaves the registry,
every other subscribed OPEN channel with a working `send` still receives the
snapshot, every delivered message is the one shared snapshot, and no channel
that did not throw is removed. -/
theorem broadcast_push_failure_isolated {κ μ π : Type} (ts : ℕ) (c : Settled κ)
    (m : Settled μ) (p : Settled (List π)) (conn : List Chan) (w : Chan)
    (hw : w ∈ conn) (hsub : w.subscribed = true) (hopen : w.readyState = 1)
    (hthrow : w.sendThrows = true) (hids : (conn.map Chan.id).Nodup) :
    (∀ x ∈ (monitorTick ts c m p conn).registry, x.id ≠ w.id) ∧
    (∀ d ∈ conn, d.id ≠ w.id → d.subscribed = true → d.readyState = 1 →
      d.sendThrows = false →
      (d.id, buildUpdate ts c m p) ∈ (monitorTick ts c m p conn).deliveries) ∧
    (∀ i v, (i, v) ∈ (monitorTick ts c m p conn).deliveries →
      v = buildUpdate ts c m p) ∧
    (∀ d ∈ conn, ¬(d.subscribed = true ∧ d.readyState = 1 ∧ d.sendThrows = true) →
      d ∈ (monitorTick ts c m p conn).registry) := by
  have hconn : ¬(conn.length = 0) := by
    intro h
    rw [List.length_eq_zero] at h
    subst h
    exact absurd hw (List.not_mem_nil w)
  have hwsub : w ∈ conn.filter (fun x => x.subscribed) :=
    List.mem_filter.mpr ⟨hw, hsub⟩
  have hsubs : ¬((conn.filter (fun x => x.subscribed)).length = 0) := by
    intro h
    rw [List.length_eq_zero] at h
    rw [h] at hwsub
    exact absurd hwsub (List.not_mem_nil w)
  simp only [monitorTick, if_neg hconn, if_neg hsubs]
  refine ⟨?_, ?_, ?_, ?_⟩
  · intro x hx
    have hxconn := List.mem_filter.mp hx
    intro hxid
    have hxw : x = w := List.inj_on_of_nodup_map hids hxconn.1 hw hxid
    subst hxw
    simp [hsub, hopen, hthrow] at hxconn
  · intro d hd hdid hdsub hdopen hdsend
    refine List.mem_map.mpr ⟨d, ?_, rfl⟩
    refine List.mem_filter.mpr ⟨List.mem_filter.mpr ⟨hd, hdsub⟩, ?_⟩
    simp [hdopen, hdsend]
  · intro i v hv
    obtain ⟨x, _, hx⟩ := List.mem_map.mp hv
    cases hx
    rfl
  · intro d hd hdnot
    refine List.mem_filter.mpr ⟨hd, ?_⟩
    simp only [Bool.not_eq_true']
    by_contra hcond
    rw [Bool.not_eq_false] at hcond
    simp only [Bool.and_eq_true, beq_iff_eq] at hcond
    exact hdnot ⟨hcond.1.1, hcond.1.2, hcond.2⟩

/-- Witness for C7: two subscribed OPEN channels, channel 0 throwing; the
tick drops channel 0 from the registry and still delivers the snapshot to
channel 1. -/
theorem broadcast_push_failure_isolated_witness :
    (∀ x ∈ (monitorTick (κ := ℕ) (μ := ℕ) (π := ℕ) 0 (.fulfilled 1) (.fulfilled 2)
      (.fulfilled [3]) [⟨0, true, 1, true⟩, ⟨1, true, 1, false⟩]).registry,
      x.id ≠ (⟨0, true, 1, true⟩ : Chan).id) ∧
    (∀ d ∈ [(⟨0, true, 1, true⟩ : Chan), ⟨1, true, 1, false⟩],
      d.id ≠ (⟨0, true, 1, true⟩ : Chan).id → d.subscribed = true → d.readyState = 1 →
      d.sendThrows = false →
      (d.id, buildUpdate 0 (.fulfilled 1) (.fulfilled 2) (.fulfilled [3])) ∈
        (monitorTick (κ := ℕ) (μ := ℕ) (π := ℕ) 0 (.fulfilled 1) (.fulfilled 2)
          (.fulfilled [3]) [⟨0, true, 1, true⟩, ⟨1, true, 1, false⟩]).deliveries) ∧
    (∀ i v, (i, v) ∈ (monitorTick (κ := ℕ) (μ := ℕ) (π := ℕ) 0 (.fulfilled 1)
        (.fulfilled 2) (.fulfilled [3])
        [⟨0, true, 1, true⟩, ⟨1, true, 1, false⟩]).deliveries →
      v = buildUpdate 0 (.fulfilled 1) (.fulfilled 2) (.fulfilled [3])) ∧
    (∀ d ∈ [(⟨0, true, 1, true⟩ : Chan), ⟨1, true, 1, false⟩],
      ¬(d.subscribed = true ∧ d.readyState = 1 ∧ d.sendThrows = true) →
      d ∈ (monitorTick (κ := ℕ) (μ := ℕ) (π := ℕ) 0 (.fulfilled 1) (.fulfilled 2)
        (.fulfilled [3]) [⟨0, true, 1, true⟩, ⟨1, true, 1, false⟩]).registry) :=
  broadcast_push_failure_isolated 0 (.fulfilled 1) (.fulfilled 2) (.fulfilled [3])
    [⟨0, true, 1, true⟩, ⟨1, true, 1, false⟩] ⟨0, true, 1, true⟩
    (by decide) (by decide) (by decide) (by decide) (by decide)

/-- Claim C9: the reply to an on-demand `requestUpdate` carries only `type`,
`timestamp`, `cpu` and `memory` — its `processes` and `errors` slots are
absent (`none`) whatever the collector outcomes, so collector failures on
this path are silently dropped; the handler never touches the channel record,
and the reply does not depend on the subscription flag. -/
theorem requestUpdate_reply_shape {κ μ : Type} (π : Type) (ts : ℕ) (c : Settled κ)
    (m : Settled μ) (w : Chan) (hopen : w.readyState = 1) (hsend : w.sendThrows = false) :
    (handleClientMessage π w (.requestUpdate ts c m)).2 =
      some ⟨"systemUpdate", ts, c.value?, m.value?, none, none⟩ ∧
    (handleClientMessage π w (.requestUpdate ts c m)).1 = w ∧
    (∀ b, handleClientMessage π { w with subscribed := b } (.requestUpdate ts c m) =
      ({ w with subscribed := b }, (handleClientMessage π w (.requestUpdate ts c m)).2)) := by
  refine ⟨?_, rfl, ?_⟩
  · simp [handleClientMessage, sendSystemUpdate, lightUpdate, hopen, hsend]
  · intro b
    simp [handleClientMessage, sendSystemUpdate, lightUpdate, hopen, hsend]

/-- Witness for C9: an unsubscribed OPEN channel asking for an update while
the CPU collector fails still receives the light reply, with `cpu = null` and
no `errors` or `processes` field. -/
theorem requestUpdate_reply_shape_witness :
    (handleClientMessage (κ := ℕ) (μ := ℕ) ℕ (⟨0, false, 1, false⟩ : Chan)
      (.requestUpdate 7 (.rejected (some "cpu broke")) (.fulfilled 2))).2 =
      some ⟨"systemUpdate", 7, none, some 2, none, none⟩ ∧
    (handleClientMessage (κ := ℕ) (μ := ℕ) ℕ (⟨0, false, 1, false⟩ : Chan)
      (.requestUpdate 7 (.rejected (some "cpu broke")) (.fulfilled 2))).1 =
      (⟨0, false, 1, false⟩ : Chan) ∧
    (∀ b, handleClientMessage (κ := ℕ) (μ := ℕ) ℕ
        ({ (⟨0, false, 1, false⟩ : Chan) with subscribed := b })
        (.requestUpdate 7 (.rejected (some "cpu broke")) (.fulfilled 2)) =
      ({ (⟨0, false, 1, false⟩ : Chan) with subscribed := b },
        (handleClientMessage (κ := ℕ) (μ := ℕ) ℕ (⟨0, false, 1, false⟩ : Chan)
          (.requestUpdate 7 (.rejected (some "cpu broke")) (.fulfilled 2))).2)) :=
  requestUpdate_reply_shape ℕ 7 (.rejected (some "cpu broke")) (.fulfilled 2)
    ⟨0, false, 1, false⟩ (by decide) (by decide)

/-- The client-message handler never changes the id of a channel. -/
theorem handleClientMessage_id {κ μ : Type} (π : Type) (w : Chan) (msg : ClientMsg κ μ) :
    (handleClientMessage π w msg).1.id = w.id := by
  cases msg <;> rfl

/-- Claim C10: a channel leaves the registry only through its close event,
its error event, or a throwing send while subscribed and OPEN during a
broadcast tick; and a subscribed channel that is not OPEN at broadcast time
is skipped — it receives nothing and stays in the registry. -/
theorem registry_removal_only_on_close_error_or_throw {κ μ π : Type}
    (conn : List Chan) (e : MonitorEv κ μ π) (w : Chan) (hw : w ∈ conn) :
    ((∀ x ∈ monitorStep conn e, x.id ≠ w.id) →
      (e = .closeEv w.id ∨ e = .errorEv w.id ∨
        ∃ ts c m p, e = .tick ts c m p ∧ w.subscribed = true ∧ w.readyState = 1 ∧
          w.sendThrows = true)) ∧
    ((conn.map Chan.id).Nodup → ∀ ts c m p, w.subscribed = true → w.readyState ≠ 1 →
      w ∈ (monitorTick (κ := κ) (μ := μ) (π := π) ts c m p conn).registry ∧
      ∀ v, (w.id, v) ∉ (monitorTick ts c m p conn).deliveries) := by
  have hconn : ¬(conn.length = 0) := by
    intro h
    rw [List.length_eq_zero] at h
    subst h
    exact absurd hw (List.not_mem_nil w)
  constructor
  · intro hgone
    cases e with
    | connect c =>
      exact absurd rfl (hgone w (by simp [monitorStep, List.mem_append, hw]))
    | closeEv i =>
      by_cases hiw : w.id = i
      · exact Or.inl (by rw [hiw])
      · refine absurd rfl (hgone w ?_)
        simp only [monitorStep]
        exact List.mem_filter.mpr ⟨hw, by simp [bne_iff_ne, hiw]⟩
    | errorEv i =>
      by_cases hiw : w.id = i
      · exact Or.inr (Or.inl (by rw [hiw]))
      · refine absurd rfl (hgone w ?_)
        simp only [monitorStep]
        exact List.mem_filter.mpr ⟨hw, by simp [bne_iff_ne, hiw]⟩
    | message i msg =>
      exfalso
      by_cases hiw : w.id = i
      · have hx : (handleClientMessage π w msg).1 ∈
            monitorStep (κ := κ) (μ := μ) (π := π) conn (.message i msg) := by
          simp only [monitorStep]
          refine List.mem_map.mpr ⟨w, hw, ?_⟩
          rw [if_pos hiw]
        exact hgone _ hx (handleClientMessage_id π w msg)
      · have hx : w ∈ monitorStep (κ := κ) (μ := μ) (π := π) conn (.message i msg) := by
          simp only [monitorStep]
          refine List.mem_map.mpr ⟨w, hw, ?_⟩
          rw [if_neg hiw]
        exact hgone w hx rfl
    | tick ts c m p =>
      by_cases hcond : w.subscribed = true ∧ w.readyState = 1 ∧ w.sendThrows = true
      · exact Or.inr (Or.inr ⟨ts, c, m, p, rfl, hcond.1, hcond.2.1, hcond.2.2⟩)
      · refine absurd rfl (hgone w ?_)
        simp only [monitorStep, monitorTick, if_neg hconn]
        by_cases hsubs : (conn.filter (fun x => x.subscribed)).length = 0
        · rw [if_pos hsubs]
          exact hw
        · rw [if_neg hsubs]
          refine List.mem_filter.mpr ⟨hw, ?_⟩
          simp only [Bool.not_eq_true']
          by_contra hb
          rw [Bool.not_eq_false] at hb
          simp only [Bool.and_eq_true, beq_iff_eq] at hb
          exact hcond ⟨hb.1.1, hb.1.2, hb.2⟩
  · intro hids ts c m p hsub hnot1
    have hwsub : w ∈ conn.filter (fun x => x.subscribed) :=
      List.mem_filter.mpr ⟨hw, hsub⟩
    have hsubs : ¬((conn.filter (fun x => x.subscribed)).length = 0) := by
      intro h
      rw [List.length_eq_zero] at h
      rw [h] at hwsub
      exact absurd hwsub (List.not_mem_nil w)
    simp only [monitorTick, if_neg hconn, if_neg hsubs]
    constructor
    · refine List.mem_filter.mpr ⟨hw, ?_⟩
      simp only [Bool.not_eq_true']
      by_contra hb
      rw [Bool.not_eq_false] at hb
      simp only [Bool.and_eq_true, beq_iff_eq] at hb
      exact hnot1 hb.1.2
    · intro v hv
      obtain ⟨x, hx, hpair⟩ := List.mem_map.mp hv
      have hxconn : x ∈ conn := (List.mem_filter.mp (List.mem_filter.mp hx).1).1
      have hxid : x.id = w.id := congrArg Prod.fst hpair
      have hxw : x = w := List.inj_on_of_nodup_map hids hxconn hw hxid
      subst hxw
      have hxopen := (List.mem_filter.mp hx).2
      simp only [Bool.and_eq_true, beq_iff_eq] at hxopen
      exact hnot1 hxopen.1

/-- Witness for C10 at concrete registries: removing channel 0 by its close
event is recognised as a close removal, and a subscribed non-OPEN channel
survives a tick without any delivery. -/
theorem registry_removal_only_on_close_error_or_throw_witness :
    ((∀ x ∈ monitorStep (κ := ℕ) (μ := ℕ) (π := ℕ) [⟨0, true, 0, false⟩]
        (.closeEv 0), x.id ≠ (⟨0, true, 0, false⟩ : Chan).id) →
      ((.closeEv 0 : MonitorEv ℕ ℕ ℕ) = .closeEv (⟨0, true, 0, false⟩ : Chan).id ∨
        (.closeEv 0 : MonitorEv ℕ ℕ ℕ) = .errorEv (⟨0, true, 0, false⟩ : Chan).id ∨
        ∃ ts c m p, (.closeEv 0 : MonitorEv ℕ ℕ ℕ) = .tick ts c m p ∧
          (⟨0, true, 0, false⟩ : Chan).subscribed = true ∧
          (⟨0, true, 0, false⟩ : Chan).readyState = 1 ∧
          (⟨0, true, 0, false⟩ : Chan).sendThrows = true)) ∧
    (([(⟨0, true, 0, false⟩ : Chan)].map Chan.id).Nodup →
      ∀ ts c m p, (⟨0, true, 0, false⟩ : Chan).subscribed = true →
      (⟨0, true, 0, false⟩ : Chan).readyState ≠ 1 →
      (⟨0, true, 0, false⟩ : Chan) ∈
        (monitorTick (κ := ℕ) (μ := ℕ) (π := ℕ) ts c m p
          [⟨0, true, 0, false⟩]).registry ∧
      ∀ v, ((⟨0, true, 0, false⟩ : Chan).id, v) ∉
        (monitorTick (κ := ℕ) (μ := ℕ) (π := ℕ) ts c m p
          [⟨0, true, 0, false⟩]).deliveries) :=
  registry_removal_only_on_close_error_or_throw (κ := ℕ) (μ := ℕ) (π := ℕ)
    [⟨0, true, 0, false⟩] (.closeEv 0) ⟨0, true, 0, false⟩ (by decide)

/-- The `onclose` handler always leaves the hook disconnected. -/
theorem onClose_connected_false (s : WSClient) : (onClose s).1.connected = false := by
  unfold onClose
  split_ifs <;> rfl

/-- Claim C8: each of the first five unexpected closes (those establishing a
consecutive-failure count from 1 to 5) schedules exactly one reconnect after
the fixed 3000 ms delay; a close with the counter already at the maximum
schedules nothing; over a run of closes exactly `min n 5` attempts are
scheduled and after the sixth close the hook is in the terminal give-up state
(persistently disconnected, no timer pending, counter at 5); every successful
open resets the counter to zero and sends exactly one subscribe frame. -/
theorem reconnect_fixed_delay_bounded_retries :
    (∀ s : WSClient, s.reconnectAttempts < maxReconnectAttempts →
      onClose s = (⟨false, s.reconnectAttempts + 1, true⟩, some reconnectDelay)) ∧
    (∀ s : WSClient, s.reconnectAttempts = maxReconnectAttempts →
      (onClose s).2 = none ∧ (onClose s).1.connected = false ∧
      (onClose s).1.reconnectAttempts = maxReconnectAttempts) ∧
    (∀ n : ℕ, (runCloses n).2 = min n maxReconnectAttempts ∧
      (runCloses n).1.reconnectAttempts = min n maxReconnectAttempts) ∧
    (∀ n : ℕ, maxReconnectAttempts + 1 ≤ n → gaveUp (runCloses n).1) ∧
    (∀ s : WSClient, onOpen s = (⟨true, 0, s.timerPending⟩, ["subscribe"])) := by
  have hrun : ∀ n : ℕ, (runCloses n).2 = min n maxReconnectAttempts ∧
      (runCloses n).1.reconnectAttempts = min n maxReconnectAttempts := by
    intro n
    induction n with
    | zero => simp [runCloses]
    | succ n ih =>
      obtain ⟨ih1, ih2⟩ := ih
      simp only [runCloses, onClose, maxReconnectAttempts] at ih1 ih2 ⊢
      split_ifs with h <;> simp_all <;> omega
  refine ⟨?_, ?_, hrun, ?_, ?_⟩
  · intro s h
    simp [onClose, if_pos h]
  · intro s h
    have hnot : ¬(s.reconnectAttempts < maxReconnectAttempts) := by omega
    simp [onClose, if_neg hnot, h]
  · intro n hn
    obtain ⟨n, rfl⟩ : ∃ k, n = k + 1 := ⟨n - 1, by omega⟩
    refine ⟨?_, rfl, ?_⟩
    · show (runCloses (n + 1)).1.connected = false
      simp only [runCloses]
      rw [show ({ (onClose (runCloses n).1).1 with timerPending := false } :
        WSClient).connected = (onClose (runCloses n).1).1.connected from rfl]
      exact onClose_connected_false _
    · have hmin := (hrun (n + 1)).2
      rw [hmin]
      simp only [maxReconnectAttempts] at hn ⊢
      omega
  · intro s
    rfl

/-- Witness for C8: a close with the counter at 2 schedules one reconnect
after 3000 ms; with the counter at 5 nothing is scheduled; six consecutive
failures give the terminal state; an open resets the counter and subscribes
once. -/
theorem reconnect_fixed_delay_bounded_retries_witness :
    onClose ⟨false, 2, false⟩ = (⟨false, 3, true⟩, some reconnectDelay) ∧
    ((onClose ⟨false, 5, false⟩).2 = none ∧
      (onClose ⟨false, 5, false⟩).1.connected = false ∧
      (onClose ⟨false, 5, false⟩).1.reconnectAttempts = maxReconnectAttempts) ∧
    ((runCloses 6).2 = min 6 maxReconnectAttempts ∧
      (runCloses 6).1.reconnectAttempts = min 6 maxReconnectAttempts) ∧
    gaveUp (runCloses 6).1 ∧
    onOpen ⟨false, 4, true⟩ = (⟨true, 0, true⟩, ["subscribe"]) :=
  ⟨reconnect_fixed_delay_bounded_retries.1 ⟨false, 2, false⟩ (by decide),
    reconnect_fixed_delay_bounded_retries.2.1 ⟨false, 5, false⟩ (by decide),
    reconnect_fixed_delay_bounded_retries.2.2.1 6,
    reconnect_fixed_delay_bounded_retries.2.2.2.1 6 (by decide),
    reconnect_fixed_delay_bounded_retries.2.2.2.2 ⟨false, 4, true⟩⟩

end SysMon
